import Mathlib

/-!
Shallow embedding of the momento Python client SDK pieces that the
claims concern: the byte-coercion and validation utilities
(`momento/internal/_utilities/_data_validation.py`), the synchronous
data client (`momento/internal/synchronous/_scs_data_client.py`), and
the header interceptor
(`momento/internal/synchronous/_add_header_client_interceptor.py`).

Python dynamic values are modelled by `PyVal`; bytes by `List Nat`
(each element a byte value); `timedelta` by its exact microsecond
count; raised exceptions by `Except PyExn`; the gRPC stub by a
`Transport` record of oracles, with the list of wire requests actually
sent recorded as a trace.
-/

/-- A Python runtime value, as far as the data-validation layer
inspects it: a `str`, a `bytes`, or some other object (only the type
matters to the code, which merely prints it in error messages). -/
inductive PyVal where
  | str (s : String)
  | bytes (b : List Nat)
  | int (n : Int)
  | pynone
  | obj (typeName : String)
  deriving DecidableEq, Repr

/-- The text Python prints for `type(data)`; only used inside error
messages, so the exact rendering is immaterial to every claim. -/
def PyVal.typeName : PyVal → String
  | .str _ => "<class str>"
  | .bytes _ => "<class bytes>"
  | .int _ => "<class int>"
  | .pynone => "<class NoneType>"
  | .obj t => t

/-- The exceptions raised by the modelled code paths. -/
inductive PyExn where
  | invalidArgument (message : String)
  | unknownException (message : String)
  | grpcDeadlineExceeded (message : String)
  | grpcUnavailable (message : String)
  | otherExn (message : String)
  deriving DecidableEq, Repr

/-- Error kinds of the SDK error taxonomy (spec section 7). -/
inductive ErrorKind where
  | invalidArgument
  | unknownService
  | timeout
  | connection
  | internalServer
  | unknown
  deriving DecidableEq, Repr

/-- An SDK error value: a stable kind plus a human-readable message. -/
structure SdkError where
  kind : ErrorKind
  message : String
  deriving DecidableEq, Repr

/-- Modelled from the spec: `convert_error` from `momento.errors` (the
module is not under src/).  Per spec sections 4.3 and 7 it classifies
every exception into the fixed error taxonomy: validation errors map to
`InvalidArgument`, an unrecognized result discriminator
(`UnknownException`) maps to `UnknownServiceError`, transport failures
map to their transport kinds, anything else to an unknown kind. -/
def convert_error : PyExn → SdkError
  | .invalidArgument m => ⟨.invalidArgument, m⟩
  | .unknownException m => ⟨.unknownService, m⟩
  | .grpcDeadlineExceeded m => ⟨.timeout, m⟩
  | .grpcUnavailable m => ⟨.connection, m⟩
  | .otherExn m => ⟨.unknown, m⟩

/-! ## UTF-8 codec

`str.encode("utf-8")` / `bytes.decode("utf-8")` are CPython builtins,
modelled here arithmetically following the UTF-8 standard.  A Lean
`Char` is a Unicode scalar value, exactly the values Python can encode
(Python raises on lone surrogates, which `Char` excludes). -/

/-- UTF-8 encoding of one Unicode scalar value. -/
def utf8EncodeCodePoint (c : Nat) : List Nat :=
  if c < 0x80 then [c]
  else if c < 0x800 then [0xC0 + c / 64, 0x80 + c % 64]
  else if c < 0x10000 then [0xE0 + c / 4096, 0x80 + c / 64 % 64, 0x80 + c % 64]
  else [0xF0 + c / 262144, 0x80 + c / 4096 % 64, 0x80 + c / 64 % 64, 0x80 + c % 64]

/-- UTF-8 encoding of a sequence of Unicode scalar values. -/
def utf8EncodeList (cs : List Nat) : List Nat :=
  (cs.map utf8EncodeCodePoint).flatten

/-- `s.encode("utf-8")` on a Python `str`. -/
def strToUtf8 (s : String) : List Nat :=
  utf8EncodeList (s.data.map Char.toNat)

/-- Is `b` a UTF-8 continuation byte? -/
def isContinuationByte (b : Nat) : Prop :=
  0x80 ≤ b ∧ b < 0xC0

instance (b : Nat) : Decidable (isContinuationByte b) :=
  inferInstanceAs (Decidable (_ ∧ _))

/-- Decode one UTF-8 encoded scalar value from the front of a byte
list: the scalar value and the remaining bytes.  Rejects invalid lead
bytes, truncated sequences, bad continuation bytes, overlong forms,
surrogates and out-of-range values, as Python's strict decoder does. -/
def utf8DecodeChar : List Nat → Option (Nat × List Nat)
  | [] => none
  | b0 :: bs =>
    if b0 < 0x80 then some (b0, bs)
    else if b0 < 0xC0 then none
    else if b0 < 0xE0 then
      match bs with
      | b1 :: bs1 =>
        if isContinuationByte b1 then
          if 0x80 ≤ (b0 - 0xC0) * 64 + (b1 - 0x80) then
            some ((b0 - 0xC0) * 64 + (b1 - 0x80), bs1)
          else none
        else none
      | [] => none
    else if b0 < 0xF0 then
      match bs with
      | b1 :: b2 :: bs2 =>
        if isContinuationByte b1 ∧ isContinuationByte b2 then
          if 0x800 ≤ (b0 - 0xE0) * 4096 + (b1 - 0x80) * 64 + (b2 - 0x80) ∧
              ¬(0xD800 ≤ (b0 - 0xE0) * 4096 + (b1 - 0x80) * 64 + (b2 - 0x80) ∧
                (b0 - 0xE0) * 4096 + (b1 - 0x80) * 64 + (b2 - 0x80) < 0xE000) then
            some ((b0 - 0xE0) * 4096 + (b1 - 0x80) * 64 + (b2 - 0x80), bs2)
          else none
        else none
      | _ => none
    else if b0 < 0xF5 then
      match bs with
      | b1 :: b2 :: b3 :: bs3 =>
        if isContinuationByte b1 ∧ isContinuationByte b2 ∧ isContinuationByte b3 then
          if 0x10000 ≤ (b0 - 0xF0) * 262144 + (b1 - 0x80) * 4096 + (b2 - 0x80) * 64
                + (b3 - 0x80) ∧
              (b0 - 0xF0) * 262144 + (b1 - 0x80) * 4096 + (b2 - 0x80) * 64 + (b3 - 0x80)
                < 0x110000 then
            some ((b0 - 0xF0) * 262144 + (b1 - 0x80) * 4096 + (b2 - 0x80) * 64 + (b3 - 0x80),
              bs3)
          else none
        else none
      | _ => none
    else none

set_option maxRecDepth 2048 in
/-- A successful single-character decode consumes at least one byte. -/
theorem utf8DecodeChar_length {l : List Nat} {cr : Nat × List Nat}
    (h : utf8DecodeChar l = some cr) : cr.2.length < l.length := by
  match l with
  | [] => simp [utf8DecodeChar] at h
  | b0 :: bs =>
    simp only [utf8DecodeChar] at h
    repeat' split at h
    all_goals first
      | (cases h; simp only [List.length_cons]; omega)
      | simp at h

/-- Strict UTF-8 decoding of a whole byte list to Unicode scalar
values, one character at a time, as Python's strict
`bytes.decode("utf-8")` does. -/
def utf8Decode : List Nat → Option (List Nat)
  | [] => some []
  | b0 :: bs =>
    match hc : utf8DecodeChar (b0 :: bs) with
    | some cr => (utf8Decode cr.2).map (cr.1 :: ·)
    | none => none
termination_by l => l.length
decreasing_by exact utf8DecodeChar_length hc

/-- `bs.decode("utf-8")` on Python bytes: decode to scalar values and
rebuild the string. -/
def pyBytesDecodeUtf8 (bs : List Nat) : Option String :=
  (utf8Decode bs).map (fun cs => String.mk (cs.map Char.ofNat))

/-! ## momento/internal/_utilities/_data_validation.py -/

def DEFAULT_STRING_CONVERSION_ERROR : String := "Could not decode bytes to UTF-8"

/-- `_validate_name` from `_data_validation.py`. -/
def _validate_name (name : PyVal) (field_name : String) : Except PyExn Unit :=
  match name with
  | .str s =>
    if s = "" then .error (.invalidArgument (field_name ++ " must not be empty")) else .ok ()
  | _ => .error (.invalidArgument (field_name ++ " must be a string"))

def _validate_cache_name (cache_name : PyVal) : Except PyExn Unit :=
  _validate_name cache_name "Cache name"

def _validate_list_name (list_name : PyVal) : Except PyExn Unit :=
  _validate_name list_name "List name"

def _validate_dictionary_name (dictionary_name : PyVal) : Except PyExn Unit :=
  _validate_name dictionary_name "Dictionary name"

def _validate_set_name (set_name : PyVal) : Except PyExn Unit :=
  _validate_name set_name "Set name"

/-- `_as_bytes` from `_data_validation.py`: `str` is UTF-8 encoded,
`bytes` passes through, anything else raises `InvalidArgumentException`
with the error message followed by the value's type. -/
def _as_bytes (data : PyVal) (error_message : String) : Except PyExn (List Nat) :=
  match data with
  | .str s => .ok (strToUtf8 s)
  | .bytes b => .ok b
  | _ => .error (.invalidArgument (error_message ++ data.typeName))

/-- Python `timedelta`, represented exactly by its microsecond count
(`total_seconds() <= 0` iff `microseconds <= 0`). -/
structure Timedelta where
  microseconds : Int
  deriving DecidableEq, Repr

/-- `int(td.total_seconds() * 1000)`: milliseconds, truncated toward
zero as Python `int()` truncates. -/
def Timedelta.toMillisecondsInt (t : Timedelta) : Int :=
  if 0 ≤ t.microseconds then t.microseconds / 1000 else -((-t.microseconds) / 1000)

/-- `_validate_timedelta_ttl` from `_data_validation.py`: `None` (or a
non-timedelta) is rejected, then a non-positive duration is rejected. -/
def _validate_timedelta_ttl (ttl : Option Timedelta) (field_name : String) : Except PyExn Unit :=
  match ttl with
  | none => .error (.invalidArgument (field_name ++ " must be a timedelta."))
  | some t =>
    if t.microseconds ≤ 0 then
      .error (.invalidArgument (field_name ++ " must be a positive amount of time."))
    else .ok ()

/-- `_validate_ttl` from `_data_validation.py`. -/
def _validate_ttl (ttl : Option Timedelta) : Except PyExn Unit :=
  _validate_timedelta_ttl ttl "TTL"

/-- One run of the `_gen_iterable_as_bytes` generator, driven to
completion or to its raised exception: the bytes it yielded, the
elements it actually passed to `_as_bytes`, and the exception (if any)
that ended it.  Elements after the first invalid one are never
touched.  (The per-element call in the source is `_as_bytes(value)`
with the default error message; the generator's own message argument
is only used for its iterability check, which a `List` input cannot
fail.) -/
structure GenRun where
  yielded : List (List Nat)
  attempted : List PyVal
  failure : Option PyExn
  deriving DecidableEq, Repr

/-- `_gen_iterable_as_bytes` from `_data_validation.py`, as the trace
of one full consumption of the generator. -/
def _gen_iterable_as_bytes : List PyVal → GenRun
  | [] => ⟨[], [], none⟩
  | v :: vs =>
    match _as_bytes v DEFAULT_STRING_CONVERSION_ERROR with
    | .error e => ⟨[], [v], some e⟩
    | .ok b =>
      let r := _gen_iterable_as_bytes vs
      ⟨b :: r.yielded, v :: r.attempted, r.failure⟩

/-- `list(_gen_iterable_as_bytes(values))`: the strict consumption the
data client performs, propagating the generator's exception. -/
def list_of_gen (vs : List PyVal) : Except PyExn (List (List Nat)) :=
  match (_gen_iterable_as_bytes vs).failure with
  | some e => .error e
  | none => .ok (_gen_iterable_as_bytes vs).yielded

/-! ## Wire messages (momento_wire_types cacheclient protobuf) -/

/-- The `ECacheResult` enum of the wire types (the data client only
compares per-field results against `Miss`). -/
inductive ECacheResult where
  | Invalid
  | Ok
  | Hit
  | Miss
  deriving DecidableEq, Repr

structure _SetIfNotExistsRequest where
  cache_key : List Nat
  cache_body : List Nat
  ttl_milliseconds : Int
  deriving DecidableEq, Repr

/-- `_SetIfNotExistsResponse`, exposed through `WhichOneof("result")`:
the declared discriminator, `none` when no variant is populated. -/
structure _SetIfNotExistsResponse where
  result_oneof : Option String
  deriving DecidableEq, Repr

structure _DictionaryGetRequest where
  dictionary_name : List Nat
  fields : List (List Nat)
  deriving DecidableEq, Repr

/-- One item of a found `_DictionaryGetResponse`. -/
structure _DictionaryGetResponsePart where
  result : ECacheResult
  cache_body : List Nat
  deriving DecidableEq, Repr

/-- `_DictionaryGetResponse`: discriminator from
`WhichOneof("dictionary")` plus the `found.items` payload (protobuf
exposes the submessage, empty by default, whichever variant is set). -/
structure _DictionaryGetResponse where
  dictionary_oneof : Option String
  found_items : List _DictionaryGetResponsePart
  deriving DecidableEq, Repr

structure _DictionaryIncrementRequest where
  dictionary_name : List Nat
  field : List Nat
  amount : Int
  ttl_milliseconds : Int
  refresh_ttl : Bool
  deriving DecidableEq, Repr

structure _DictionaryIncrementResponse where
  value : Int
  deriving DecidableEq, Repr

structure _ListFetchRequest where
  list_name : List Nat
  deriving DecidableEq, Repr

/-- `_ListFetchResponse`: discriminator from `WhichOneof("list")` plus
the `found.values` payload. -/
structure _ListFetchResponse where
  list_oneof : Option String
  found_values : List (List Nat)
  deriving DecidableEq, Repr

structure _SetRequest where
  cache_key : List Nat
  cache_body : List Nat
  ttl_milliseconds : Int
  deriving DecidableEq, Repr

structure _SetResponse where
  deriving DecidableEq, Repr

/-- A request actually handed to the gRPC stub, i.e. one network call. -/
inductive WireRequest where
  | setIfNotExists (r : _SetIfNotExistsRequest)
  | dictionaryGet (r : _DictionaryGetRequest)
  | dictionaryIncrement (r : _DictionaryIncrementRequest)
  | listFetch (r : _ListFetchRequest)
  | setScalar (r : _SetRequest)
  deriving DecidableEq, Repr

/-- The remote service behind the stub: one oracle per RPC, which may
complete with a response or fail with a (transport) exception. -/
structure Transport where
  setIfNotExists : _SetIfNotExistsRequest → Except PyExn _SetIfNotExistsResponse
  dictionaryGet : _DictionaryGetRequest → Except PyExn _DictionaryGetResponse
  dictionaryIncrement : _DictionaryIncrementRequest → Except PyExn _DictionaryIncrementResponse
  listFetch : _ListFetchRequest → Except PyExn _ListFetchResponse
  setScalar : _SetRequest → Except PyExn _SetResponse

/-- The trace of wire requests a call has sent, in order. -/
abbrev NetTrace := List WireRequest

/-- The effect monad of a data-client operation body: it may raise a
Python exception, and it records every request sent on the wire
(network effects are not rolled back by an exception). -/
def DM (α : Type) := NetTrace → Except PyExn α × NetTrace

instance : Monad DM where
  pure a := fun t => (.ok a, t)
  bind x f := fun t =>
    match x t with
    | (.ok a, t1) => f a t1
    | (.error e, t1) => (.error e, t1)

/-- Raise a Python exception. -/
def DM.raise {α : Type} (e : PyExn) : DM α := fun t => (.error e, t)

/-- Run a pure `Except` computation (validation, coercion) inside the
operation body. -/
def DM.liftE {α : Type} : Except PyExn α → DM α
  | .ok a => pure a
  | .error e => DM.raise e

/-- Hand a request to the stub: the request is recorded as sent, and
the oracle's answer (response or transport failure) comes back. -/
def DM.send {ρ σ : Type} (mk : ρ → WireRequest) (call : ρ → Except PyExn σ) (r : ρ) : DM σ :=
  fun t => (call r, t ++ [mk r])

/-- The `try ... except Exception as e: return error_fn(e)` wrapper
every public operation body sits inside: a body that raised is turned
into the operation's error outcome. -/
def runOp {α : Type} (body : DM α) (errFn : PyExn → α) : α × NetTrace :=
  match body [] with
  | (.ok a, t) => (a, t)
  | (.error e, t) => (errFn e, t)

/-! ## Typed outcome variants (momento.responses) -/

inductive CacheSetIfNotExistsResponse where
  | stored
  | notStored
  | error (e : SdkError)
  deriving DecidableEq, Repr

/-- `CacheDictionaryGetField`: the per-field outcome.  `Hit` carries
the value bytes and the field key; `Miss` is constructed with no
arguments in the source and so carries nothing. -/
inductive CacheDictionaryGetFieldResponse where
  | hit (value : List Nat) (field : List Nat)
  | miss
  | error (e : SdkError)
  deriving DecidableEq, Repr

inductive CacheDictionaryGetFieldsResponse where
  | hit (responses : List CacheDictionaryGetFieldResponse)
  | miss
  | error (e : SdkError)
  deriving DecidableEq, Repr

inductive CacheDictionaryIncrementResponse where
  | success (value : Int)
  | error (e : SdkError)
  deriving DecidableEq, Repr

inductive CacheListFetchResponse where
  | hit (values : List (List Nat))
  | miss
  | error (e : SdkError)
  deriving DecidableEq, Repr

inductive CacheSetResponse where
  | success
  | error (e : SdkError)
  deriving DecidableEq, Repr

/-! ## momento/internal/synchronous/_scs_data_client.py -/

def UNSUPPORTED_DICTIONARY_NAME_TYPE_MSG : String := "Unsupported type for dictionary_name: "

def UNSUPPORTED_DICTIONARY_FIELD_TYPE_MSG : String := "Unsupported type for field: "

def UNSUPPORTED_LIST_NAME_TYPE_MSG : String := "Unsupported type for list_name: "

/-- Modelled from the spec: `CollectionTtl` from `momento.requests`
(the module is not under src/).  Spec section 3: a small structure
carrying an optional duration and a refresh-on-write boolean. -/
structure CollectionTtl where
  ttl : Option Timedelta
  refresh_ttl : Bool
  deriving DecidableEq, Repr

/-- Modelled from the spec: `CollectionTtl.from_cache_ttl()`, the
default policy deferring to the client TTL and refreshing on write. -/
def CollectionTtl.from_cache_ttl : CollectionTtl :=
  { ttl := none, refresh_ttl := true }

/-- The state of a `_ScsDataClient` that the modelled operations read:
its (constructor-validated) default TTL. -/
structure _ScsDataClient where
  default_ttl : Timedelta
  deriving DecidableEq, Repr

/-- `ttl_or_default_milliseconds` from `_scs_data_client.py`. -/
def _ScsDataClient.ttl_or_default_milliseconds (self : _ScsDataClient) (ttl : Option Timedelta) : Int :=
  (match ttl with
   | none => self.default_ttl
   | some t => t).toMillisecondsInt

/-- `collection_ttl_or_default_milliseconds` from `_scs_data_client.py`. -/
def _ScsDataClient.collection_ttl_or_default_milliseconds (self : _ScsDataClient) (collection_ttl : CollectionTtl) : Int :=
  self.ttl_or_default_milliseconds collection_ttl.ttl

/-- The body of `set_if_not_exists` (the code inside its `try`). -/
def _ScsDataClient.set_if_not_exists_body (self : _ScsDataClient) (tr : Transport)
    (cache_name key value : PyVal) (ttl : Option Timedelta) : DM CacheSetIfNotExistsResponse := do
  DM.liftE (_validate_cache_name cache_name)
  let item_ttl := match ttl with | none => self.default_ttl | some t => t
  DM.liftE (_validate_ttl (some item_ttl))
  let cache_key ← DM.liftE (_as_bytes key "Unsupported type for key: ")
  let cache_body ← DM.liftE (_as_bytes value "Unsupported type for value: ")
  let request : _SetIfNotExistsRequest :=
    { cache_key := cache_key, cache_body := cache_body,
      ttl_milliseconds := item_ttl.toMillisecondsInt }
  let response ← DM.send WireRequest.setIfNotExists tr.setIfNotExists request
  let result := response.result_oneof
  if result = some "stored" then pure CacheSetIfNotExistsResponse.stored
  else if result = some "not_stored" then pure CacheSetIfNotExistsResponse.notStored
  else DM.raise (PyExn.unknownException "SetIfNotExists responded with an unknown result")

/-- `set_if_not_exists` from `_scs_data_client.py`: the body inside a
catch-all `except` returning the error outcome. -/
def _ScsDataClient.set_if_not_exists (self : _ScsDataClient) (tr : Transport)
    (cache_name key value : PyVal) (ttl : Option Timedelta) :
    CacheSetIfNotExistsResponse × NetTrace :=
  runOp (self.set_if_not_exists_body tr cache_name key value ttl)
    (fun e => CacheSetIfNotExistsResponse.error (convert_error e))

/-- The `for field, get_response in zip(bytes_fields, response.found.items)`
loop of `dictionary_get_fields`: pair requested fields with response
items positionally; a `Miss` item yields the bare `Miss` outcome, any
other item yields a `Hit` with the item's bytes and the field. -/
def dictionary_get_responses :
    List (List Nat) → List _DictionaryGetResponsePart → List CacheDictionaryGetFieldResponse
  | field :: fs, item :: its =>
    (if item.result = ECacheResult.Miss then CacheDictionaryGetFieldResponse.miss
     else CacheDictionaryGetFieldResponse.hit item.cache_body field)
      :: dictionary_get_responses fs its
  | _, _ => []

/-- The body of `dictionary_get_fields` (the code inside its `try`). -/
def _ScsDataClient.dictionary_get_fields_body (self : _ScsDataClient) (tr : Transport)
    (cache_name dictionary_name : PyVal) (fields : List PyVal) :
    DM CacheDictionaryGetFieldsResponse := do
  DM.liftE (_validate_cache_name cache_name)
  DM.liftE (_validate_dictionary_name dictionary_name)
  let dname ← DM.liftE (_as_bytes dictionary_name UNSUPPORTED_DICTIONARY_NAME_TYPE_MSG)
  let bytes_fields ← DM.liftE (list_of_gen fields)
  let request : _DictionaryGetRequest := { dictionary_name := dname, fields := bytes_fields }
  let response ← DM.send WireRequest.dictionaryGet tr.dictionaryGet request
  let t := response.dictionary_oneof
  if t = some "found" then
    pure (CacheDictionaryGetFieldsResponse.hit
      (dictionary_get_responses bytes_fields response.found_items))
  else if t = some "missing" then pure CacheDictionaryGetFieldsResponse.miss
  else DM.raise (PyExn.unknownException "Unknown dictionary field")

/-- `dictionary_get_fields` from `_scs_data_client.py`. -/
def _ScsDataClient.dictionary_get_fields (self : _ScsDataClient) (tr : Transport)
    (cache_name dictionary_name : PyVal) (fields : List PyVal) :
    CacheDictionaryGetFieldsResponse × NetTrace :=
  runOp (self.dictionary_get_fields_body tr cache_name dictionary_name fields)
    (fun e => CacheDictionaryGetFieldsResponse.error (convert_error e))

/-- The body of `dictionary_increment` (the code inside its `try`).
No TTL validation is performed here: the collection TTL is converted
straight to milliseconds. -/
def _ScsDataClient.dictionary_increment_body (self : _ScsDataClient) (tr : Transport)
    (cache_name dictionary_name field : PyVal) (amount : Int) (ttl : CollectionTtl) :
    DM CacheDictionaryIncrementResponse := do
  DM.liftE (_validate_cache_name cache_name)
  DM.liftE (_validate_dictionary_name dictionary_name)
  let dname ← DM.liftE (_as_bytes dictionary_name UNSUPPORTED_DICTIONARY_NAME_TYPE_MSG)
  let fbytes ← DM.liftE (_as_bytes field UNSUPPORTED_DICTIONARY_FIELD_TYPE_MSG)
  let request : _DictionaryIncrementRequest :=
    { dictionary_name := dname, field := fbytes, amount := amount,
      ttl_milliseconds := self.collection_ttl_or_default_milliseconds ttl,
      refresh_ttl := ttl.refresh_ttl }
  let response ← DM.send WireRequest.dictionaryIncrement tr.dictionaryIncrement request
  pure (CacheDictionaryIncrementResponse.success response.value)

/-- `dictionary_increment` from `_scs_data_client.py`. -/
def _ScsDataClient.dictionary_increment (self : _ScsDataClient) (tr : Transport)
    (cache_name dictionary_name field : PyVal) (amount : Int) (ttl : CollectionTtl) :
    CacheDictionaryIncrementResponse × NetTrace :=
  runOp (self.dictionary_increment_body tr cache_name dictionary_name field amount ttl)
    (fun e => CacheDictionaryIncrementResponse.error (convert_error e))

/-- The body of `list_fetch` (the code inside its `try`). -/
def _ScsDataClient.list_fetch_body (self : _ScsDataClient) (tr : Transport)
    (cache_name list_name : PyVal) : DM CacheListFetchResponse := do
  DM.liftE (_validate_cache_name cache_name)
  DM.liftE (_validate_list_name list_name)
  let lname ← DM.liftE (_as_bytes list_name UNSUPPORTED_LIST_NAME_TYPE_MSG)
  let request : _ListFetchRequest := { list_name := lname }
  let response ← DM.send WireRequest.listFetch tr.listFetch request
  let t := response.list_oneof
  if t = some "missing" then pure CacheListFetchResponse.miss
  else if t = some "found" then pure (CacheListFetchResponse.hit response.found_values)
  else DM.raise (PyExn.unknownException "Unknown list field")

/-- `list_fetch` from `_scs_data_client.py`. -/
def _ScsDataClient.list_fetch (self : _ScsDataClient) (tr : Transport)
    (cache_name list_name : PyVal) : CacheListFetchResponse × NetTrace :=
  runOp (self.list_fetch_body tr cache_name list_name)
    (fun e => CacheListFetchResponse.error (convert_error e))

/-- Modelled from the spec: `prepare_set_request` from
`momento.internal.common._data_client_scalar_ops` (not under src/).
Per spec sections 3-4 it validates the effective TTL (override or
client default, strictly positive) and coerces key and value to bytes,
producing the wire request. -/
def prepare_set_request (self : _ScsDataClient) (key value : PyVal) (ttl : Option Timedelta) :
    Except PyExn _SetRequest := do
  let item_ttl := match ttl with | none => self.default_ttl | some t => t
  _validate_ttl (some item_ttl)
  let k ← _as_bytes key "Unsupported type for key: "
  let v ← _as_bytes value "Unsupported type for value: "
  .ok { cache_key := k, cache_body := v, ttl_milliseconds := item_ttl.toMillisecondsInt }

/-- Modelled from the spec: `construct_set_response` from
`momento.internal.common._data_client_scalar_ops` (not under src/).
Spec section 3: a completed mutation is a `Success`. -/
def construct_set_response (_response : _SetResponse) : CacheSetResponse :=
  CacheSetResponse.success

/-- Modelled from the spec: `wrap_with_error_handling` from
`momento.internal.common._data_client_ops` (not under src/).  Spec
sections 4.3 and 7: the single chokepoint that validates the cache
name, builds the request, executes it and interprets the response,
funnelling every exception on the way into the operation's uniform
Error outcome via `convert_error`. -/
def wrap_with_error_handling {ρ σ α : Type} (cache_name : PyVal)
    (prepare_request_fn : Except PyExn ρ) (execute_request_fn : ρ → DM σ)
    (response_fn : σ → α) (error_fn : SdkError → α) : α × NetTrace :=
  runOp
    (do
      DM.liftE (_validate_cache_name cache_name)
      let req ← DM.liftE prepare_request_fn
      let resp ← execute_request_fn req
      pure (response_fn resp))
    (fun e => error_fn (convert_error e))

/-- The body of `set` as it is wrapped (what `wrap_with_error_handling`
runs for the scalar `set` operation). -/
def _ScsDataClient.set_body (self : _ScsDataClient) (tr : Transport)
    (cache_name key value : PyVal) (ttl : Option Timedelta) : DM CacheSetResponse := do
  DM.liftE (_validate_cache_name cache_name)
  let req ← DM.liftE (prepare_set_request self key value ttl)
  let resp ← DM.send WireRequest.setScalar tr.setScalar req
  pure (construct_set_response resp)

/-- `set` from `_scs_data_client.py`: delegates to
`wrap_with_error_handling` with the prepare / execute / response /
error functions for the Set RPC. -/
def _ScsDataClient.set (self : _ScsDataClient) (tr : Transport)
    (cache_name key value : PyVal) (ttl : Option Timedelta) : CacheSetResponse × NetTrace :=
  wrap_with_error_handling cache_name (prepare_set_request self key value ttl)
    (fun r => DM.send WireRequest.setScalar tr.setScalar r)
    construct_set_response CacheSetResponse.error

/-! ## momento/internal/synchronous/_add_header_client_interceptor.py -/

/-- A header to inject (`Header` class). -/
structure Header where
  name : String
  value : String
  deriving DecidableEq, Repr

/-- `Header.once_only_headers`: the names sent on the first call only. -/
def once_only_headers : List String := ["agent"]

/-- `AddHeaderClientInterceptor.is_only_once_header`. -/
def is_only_once_header (header : Header) : Bool :=
  once_only_headers.contains header.name

/-- `AddHeaderClientInterceptor.is_not_only_once_header`. -/
def is_not_only_once_header (header : Header) : Bool :=
  !(once_only_headers.contains header.name)

/-- The grpc metadata property of client call details: absent (`None`),
a list of name/value pairs, or some other object. -/
inductive PyMetadata where
  | pynone
  | list (entries : List (String × String))
  | obj (typeName : String)
  deriving DecidableEq, Repr

/-- `_ClientCallDetails`: method, timeout, metadata, credentials. -/
structure _ClientCallDetails where
  method : String
  timeout : Option Timedelta
  metadata : PyMetadata
  credentials : Option String
  deriving DecidableEq, Repr

/-- `sanitize_client_call_details` from
`_add_header_client_interceptor.py`: metadata `None` is replaced by a
fresh empty list (other fields copied), an existing list is returned
unchanged, and any other metadata type raises `InvalidArgumentError`. -/
def sanitize_client_call_details (client_call_details : _ClientCallDetails) :
    Except PyExn _ClientCallDetails :=
  match client_call_details.metadata with
  | .pynone =>
    .ok { method := client_call_details.method,
          timeout := client_call_details.timeout,
          metadata := .list [],
          credentials := client_call_details.credentials }
  | .list _ => .ok client_call_details
  | .obj ty =>
    .error (.invalidArgument
      ("unexpected grpc client request metadata property passed to interceptor type=" ++ ty))

/-- The per-instance state of an `AddHeaderClientInterceptor`: the
constructor splits the given headers into the once-only ones and the
every-time ones. -/
structure AddHeaderClientInterceptor where
  headers_to_add_once : List Header
  headers_to_add_every_time : List Header
  deriving DecidableEq, Repr

/-- `AddHeaderClientInterceptor.__init__`. -/
def AddHeaderClientInterceptor.ofHeaders (headers : List Header) : AddHeaderClientInterceptor :=
  { headers_to_add_once := headers.filter is_only_once_header,
    headers_to_add_every_time := headers.filter is_not_only_once_header }

/-- The metadata entries of sanitized call details (after
`sanitize_client_call_details` succeeds the metadata is always a
list). -/
def metadataEntries (d : _ClientCallDetails) : List (String × String) :=
  match d.metadata with
  | .list l => l
  | _ => []

/-- `intercept_unary_unary` from `_add_header_client_interceptor.py`.
`are_only_once_headers_sent` is the CLASS attribute
`AddHeaderClientInterceptor.are_only_once_headers_sent` — one flag
shared by every instance in the process — threaded explicitly.  The
every-time headers are appended on each call; the once-only headers
are appended only while the class flag is unset, and the flag is set
inside that loop (so it stays unset when the instance carries no
once-only header). -/
def AddHeaderClientInterceptor.intercept_unary_unary (self : AddHeaderClientInterceptor)
    (are_only_once_headers_sent : Bool) (client_call_details : _ClientCallDetails) :
    Except PyExn (_ClientCallDetails × Bool) := do
  let new_details ← sanitize_client_call_details client_call_details
  let md := metadataEntries new_details
             ++ self.headers_to_add_every_time.map (fun h => (h.name, h.value))
  if are_only_once_headers_sent then
    .ok ({ new_details with metadata := .list md }, are_only_once_headers_sent)
  else
    let md2 := md ++ self.headers_to_add_once.map (fun h => (h.name, h.value))
    let flag := if self.headers_to_add_once.isEmpty then are_only_once_headers_sent else true
    .ok ({ new_details with metadata := .list md2 }, flag)

/-- Fresh call details for one RPC (each call builds its own details
with no metadata set yet). -/
def freshCallDetails : _ClientCallDetails :=
  { method := "/cache_client.Scs/Get", timeout := none,
    metadata := .pynone, credentials := none }

/-- A sequence of `n` sequential calls through the interceptor,
threading the class flag; returns each call's final metadata and the
final flag. -/
def runInterceptSeq (self : AddHeaderClientInterceptor) :
    Bool → Nat → List (List (String × String)) × Bool
  | flag, 0 => ([], flag)
  | flag, n + 1 =>
    match self.intercept_unary_unary flag freshCallDetails with
    | .error _ => ([], flag)
    | .ok (d, flag1) =>
      let rest := runInterceptSeq self flag1 n
      (metadataEntries d :: rest.1, rest.2)

/-- How many times a metadata list carries the agent header. -/
def countAgent (md : List (String × String)) : Nat :=
  (md.filter (fun p => p.1 == "agent")).length

/-! ## Fixtures used by concrete witnesses and counterexamples -/

/-- A transport whose oracles complete with the given responses. -/
def trWith (sine dict listo : Option String) (items : List _DictionaryGetResponsePart)
    (values : List (List Nat)) (incr : Int) : Transport :=
  { setIfNotExists := fun _ => .ok ⟨sine⟩,
    dictionaryGet := fun _ => .ok ⟨dict, items⟩,
    dictionaryIncrement := fun _ => .ok ⟨incr⟩,
    listFetch := fun _ => .ok ⟨listo, values⟩,
    setScalar := fun _ => .ok ⟨⟩ }

/-- A transport answering every RPC with a recognized discriminator. -/
def trW : Transport := trWith (some "stored") (some "found") (some "missing") [] [] 5

/-- A client with a five-second default TTL. -/
def clientW : _ScsDataClient := ⟨⟨5000000⟩⟩

/-- Is `name` a value `_validate_name` rejects (a non-string, or the
empty string)? -/
def invalid_name_b : PyVal → Bool
  | .str s => s == ""
  | _ => true

/-- C9: `sanitize_client_call_details` is a three-way total function on
the metadata field: `None` metadata is replaced by new details with an
empty-list metadata and unchanged method, timeout and credentials;
metadata that is already a list returns the input unchanged; any other
metadata type raises `InvalidArgumentError`. -/
theorem sanitize_client_call_details_three_way
    (method : String) (timeout : Option Timedelta) (credentials : Option String) :
    (sanitize_client_call_details ⟨method, timeout, .pynone, credentials⟩
       = .ok ⟨method, timeout, .list [], credentials⟩)
  ∧ (∀ l, sanitize_client_call_details ⟨method, timeout, .list l, credentials⟩
       = .ok ⟨method, timeout, .list l, credentials⟩)
  ∧ (∀ ty, ∃ m, sanitize_client_call_details ⟨method, timeout, .obj ty, credentials⟩
       = .error (.invalidArgument m)) :=
  ⟨rfl, fun _ => rfl, fun _ => ⟨_, rfl⟩⟩

/-- `set` delegates to `wrap_with_error_handling`, which runs exactly
the `set` body under the uniform error conversion. -/
theorem set_eq_runOp_set_body (self : _ScsDataClient) (tr : Transport)
    (cache_name key value : PyVal) (ttl : Option Timedelta) :
    self.set tr cache_name key value ttl
      = runOp (self.set_body tr cache_name key value ttl)
          (fun e => CacheSetResponse.error (convert_error e)) := rfl

/-- C2: every modelled public data operation is total: on every input
it returns an outcome variant, and any exception the body raises
(validation, request construction, transport, or response
interpretation) is converted by `convert_error` into the operation's
Error variant rather than propagating. -/
theorem operations_total_and_convert_exceptions (self : _ScsDataClient) (tr : Transport)
    (cache_name key value dictionary_name : PyVal) (fields : List PyVal)
    (ttl : Option Timedelta) :
    ((∃ o t, self.set_if_not_exists_body tr cache_name key value ttl [] = (.ok o, t) ∧
        self.set_if_not_exists tr cache_name key value ttl = (o, t)) ∨
     (∃ e t, self.set_if_not_exists_body tr cache_name key value ttl [] = (.error e, t) ∧
        self.set_if_not_exists tr cache_name key value ttl
          = (.error (convert_error e), t)))
  ∧ ((∃ o t, self.dictionary_get_fields_body tr cache_name dictionary_name fields []
          = (.ok o, t) ∧
        self.dictionary_get_fields tr cache_name dictionary_name fields = (o, t)) ∨
     (∃ e t, self.dictionary_get_fields_body tr cache_name dictionary_name fields []
          = (.error e, t) ∧
        self.dictionary_get_fields tr cache_name dictionary_name fields
          = (.error (convert_error e), t)))
  ∧ ((∃ o t, self.set_body tr cache_name key value ttl [] = (.ok o, t) ∧
        self.set tr cache_name key value ttl = (o, t)) ∨
     (∃ e t, self.set_body tr cache_name key value ttl [] = (.error e, t) ∧
        self.set tr cache_name key value ttl = (.error (convert_error e), t))) := by
  refine ⟨?_, ?_, ?_⟩
  · rcases h : self.set_if_not_exists_body tr cache_name key value ttl [] with ⟨r, t⟩
    cases r with
    | ok o =>
      exact Or.inl ⟨o, t, rfl, by
        simp [_ScsDataClient.set_if_not_exists, runOp, h]⟩
    | error e =>
      exact Or.inr ⟨e, t, rfl, by
        simp [_ScsDataClient.set_if_not_exists, runOp, h]⟩
  · rcases h : self.dictionary_get_fields_body tr cache_name dictionary_name fields [] with ⟨r, t⟩
    cases r with
    | ok o =>
      exact Or.inl ⟨o, t, rfl, by
        simp [_ScsDataClient.dictionary_get_fields, runOp, h]⟩
    | error e =>
      exact Or.inr ⟨e, t, rfl, by
        simp [_ScsDataClient.dictionary_get_fields, runOp, h]⟩
  · rcases h : self.set_body tr cache_name key value ttl [] with ⟨r, t⟩
    cases r with
    | ok o =>
      exact Or.inl ⟨o, t, rfl, by
        rw [set_eq_runOp_set_body]; simp [runOp, h]⟩
    | error e =>
      exact Or.inr ⟨e, t, rfl, by
        rw [set_eq_runOp_set_body]; simp [runOp, h]⟩

/-- C6: a cache/list/dictionary name that is not a string or is the
empty string makes `_validate_name` raise `InvalidArgumentException`,
and makes every modelled operation return an InvalidArgument error
outcome with an empty network trace — the validation error fires
before any network call is attempted. -/
theorem invalid_name_short_circuits (name : PyVal) (h : invalid_name_b name = true) :
    (∀ field_name, ∃ m, _validate_name name field_name = .error (.invalidArgument m))
  ∧ (∀ self tr key value ttl, ∃ m,
      _ScsDataClient.set_if_not_exists self tr name key value ttl
        = (.error ⟨.invalidArgument, m⟩, []))
  ∧ (∀ self tr dictionary_name fields, ∃ m,
      _ScsDataClient.dictionary_get_fields self tr name dictionary_name fields
        = (.error ⟨.invalidArgument, m⟩, []))
  ∧ (∀ self tr fields, ∃ m,
      _ScsDataClient.dictionary_get_fields self tr (.str "c") name fields
        = (.error ⟨.invalidArgument, m⟩, []))
  ∧ (∀ self tr field amount ct, ∃ m,
      _ScsDataClient.dictionary_increment self tr name (.str "d") field amount ct
        = (.error ⟨.invalidArgument, m⟩, []))
  ∧ (∀ self tr, ∃ m,
      _ScsDataClient.list_fetch self tr (.str "c") name
        = (.error ⟨.invalidArgument, m⟩, [])) := by
  cases name with
  | str s =>
    have hs : s = "" := by simpa [invalid_name_b] using h
    subst hs
    exact ⟨fun _ => ⟨_, rfl⟩, fun _ _ _ _ _ => ⟨_, rfl⟩, fun _ _ _ _ => ⟨_, rfl⟩,
      fun _ _ _ => ⟨_, rfl⟩, fun _ _ _ _ _ => ⟨_, rfl⟩, fun _ _ => ⟨_, rfl⟩⟩
  | bytes b =>
    exact ⟨fun _ => ⟨_, rfl⟩, fun _ _ _ _ _ => ⟨_, rfl⟩, fun _ _ _ _ => ⟨_, rfl⟩,
      fun _ _ _ => ⟨_, rfl⟩, fun _ _ _ _ _ => ⟨_, rfl⟩, fun _ _ => ⟨_, rfl⟩⟩
  | int n =>
    exact ⟨fun _ => ⟨_, rfl⟩, fun _ _ _ _ _ => ⟨_, rfl⟩, fun _ _ _ _ => ⟨_, rfl⟩,
      fun _ _ _ => ⟨_, rfl⟩, fun _ _ _ _ _ => ⟨_, rfl⟩, fun _ _ => ⟨_, rfl⟩⟩
  | pynone =>
    exact ⟨fun _ => ⟨_, rfl⟩, fun _ _ _ _ _ => ⟨_, rfl⟩, fun _ _ _ _ => ⟨_, rfl⟩,
      fun _ _ _ => ⟨_, rfl⟩, fun _ _ _ _ _ => ⟨_, rfl⟩, fun _ _ => ⟨_, rfl⟩⟩
  | obj ty =>
    exact ⟨fun _ => ⟨_, rfl⟩, fun _ _ _ _ _ => ⟨_, rfl⟩, fun _ _ _ _ => ⟨_, rfl⟩,
      fun _ _ _ => ⟨_, rfl⟩, fun _ _ _ _ _ => ⟨_, rfl⟩, fun _ _ => ⟨_, rfl⟩⟩

/-- C6 witness: a non-string cache name on `set_if_not_exists` yields
an InvalidArgument error with no network call. -/
theorem invalid_name_short_circuits_witness :
    ∃ m, _ScsDataClient.set_if_not_exists clientW trW (.int 5) (.str "k") (.str "v") none
      = (.error ⟨.invalidArgument, m⟩, []) :=
  (invalid_name_short_circuits (.int 5) (by decide)).2.1 clientW trW (.str "k") (.str "v") none

/-- C1: when a completed server response declares a result
discriminator that is not one of the expected variants, the operation
returns an Error of unknown-service kind — never Stored, NotStored,
Hit, Miss or Success: `set_if_not_exists` (expects stored/not_stored),
`list_fetch` and `dictionary_get_fields` (expect found/missing). -/
theorem unrecognized_discriminator_is_error (self : _ScsDataClient) (d : Option String)
    (items : List _DictionaryGetResponsePart) (values : List (List Nat))
    (h1 : d ≠ some "stored") (h2 : d ≠ some "not_stored")
    (h3 : d ≠ some "found") (h4 : d ≠ some "missing") :
    (self.set_if_not_exists (trWith d none none [] [] 0) (.str "c") (.str "k") (.str "v")
        (some ⟨1000000⟩)).1
      = .error ⟨.unknownService, "SetIfNotExists responded with an unknown result"⟩
  ∧ (self.list_fetch (trWith none none d [] values 0) (.str "c") (.str "l")).1
      = .error ⟨.unknownService, "Unknown list field"⟩
  ∧ (self.dictionary_get_fields (trWith none d none items [] 0) (.str "c") (.str "d")
        [.str "f"]).1
      = .error ⟨.unknownService, "Unknown dictionary field"⟩ := by
  refine ⟨?_, ?_, ?_⟩
  · simp [_ScsDataClient.set_if_not_exists, _ScsDataClient.set_if_not_exists_body, runOp,
      trWith, DM.liftE, DM.raise, DM.send, _validate_cache_name, _validate_name, _validate_ttl,
      _validate_timedelta_ttl, _as_bytes, convert_error, Bind.bind, Pure.pure, h1, h2]
  · simp [_ScsDataClient.list_fetch, _ScsDataClient.list_fetch_body, runOp,
      trWith, DM.liftE, DM.raise, DM.send, _validate_cache_name, _validate_list_name,
      _validate_name, _as_bytes, convert_error, Bind.bind, Pure.pure, h3, h4]
  · simp [_ScsDataClient.dictionary_get_fields, _ScsDataClient.dictionary_get_fields_body, runOp,
      trWith, DM.liftE, DM.raise, DM.send, _validate_cache_name, _validate_dictionary_name,
      _validate_name, _as_bytes, list_of_gen, _gen_iterable_as_bytes, convert_error,
      Bind.bind, Pure.pure, h3, h4]

/-- C1 witness: a concrete bogus discriminator on `set_if_not_exists`
produces the unknown-service error. -/
theorem unrecognized_discriminator_is_error_witness :
    (clientW.set_if_not_exists (trWith (some "bogus") none none [] [] 0) (.str "c") (.str "k")
        (.str "v") (some ⟨1000000⟩)).1
      = .error ⟨.unknownService, "SetIfNotExists responded with an unknown result"⟩ :=
  (unrecognized_discriminator_is_error clientW (some "bogus") [] []
    (by decide) (by decide) (by decide) (by decide)).1

/-- C5 counterexample: `dictionary_increment` with a zero-duration
`CollectionTtl` is not rejected: the request is transmitted with
`ttl_milliseconds = 0` and the operation reports Success. -/
theorem zero_collection_ttl_transmitted :
    clientW.dictionary_increment (trWith none none none [] [] 5) (.str "c") (.str "d")
        (.str "f") 1 ⟨some ⟨0⟩, true⟩
      = (.success 5,
         [WireRequest.dictionaryIncrement ⟨strToUtf8 "d", strToUtf8 "f", 1, 0, true⟩]) := rfl

/-- C5 (amended): the scalar conditional write `set_if_not_exists`
rejects a non-positive effective TTL as a validation error before any
network call, but collection operations carrying a `CollectionTtl`
perform no positivity validation: the computed `ttl_milliseconds` of
the collection TTL is transmitted in the request unconditionally. -/
theorem ttl_positivity_scalar_only (t : Timedelta) (h : t.microseconds ≤ 0) :
    (∀ self tr key value,
      _ScsDataClient.set_if_not_exists self tr (.str "c") key value (some t)
        = (.error ⟨.invalidArgument, "TTL must be a positive amount of time."⟩, []))
  ∧ (∀ amount b incr,
      clientW.dictionary_increment (trWith none none none [] [] incr) (.str "c") (.str "d")
          (.str "f") amount ⟨some t, b⟩
        = (.success incr,
           [WireRequest.dictionaryIncrement
             ⟨strToUtf8 "d", strToUtf8 "f", amount, t.toMillisecondsInt, b⟩])) := by
  constructor
  · intro self tr key value
    simp [_ScsDataClient.set_if_not_exists, _ScsDataClient.set_if_not_exists_body, runOp,
      DM.liftE, DM.raise, _validate_cache_name, _validate_name, _validate_ttl,
      _validate_timedelta_ttl, convert_error, Bind.bind, h]
  · intro amount b incr
    rfl

/-- C5 witness: a concrete negative TTL exercises both halves. -/
theorem ttl_positivity_scalar_only_witness :
    (_ScsDataClient.set_if_not_exists clientW trW (.str "c") (.str "k") (.str "v")
        (some ⟨-1000000⟩)
      = (.error ⟨.invalidArgument, "TTL must be a positive amount of time."⟩, []))
  ∧ (clientW.dictionary_increment (trWith none none none [] [] 7) (.str "c") (.str "d")
        (.str "f") 1 ⟨some ⟨-1000000⟩, true⟩
      = (.success 7,
         [WireRequest.dictionaryIncrement
           ⟨strToUtf8 "d", strToUtf8 "f", 1, (Timedelta.mk (-1000000)).toMillisecondsInt,
            true⟩])) :=
  ⟨(ttl_positivity_scalar_only ⟨-1000000⟩ (by decide)).1 clientW trW (.str "k") (.str "v"),
   (ttl_positivity_scalar_only ⟨-1000000⟩ (by decide)).2 1 true 7⟩

/-- Coercing a list of strings through the generator touches every
element and yields their UTF-8 encodings with no failure. -/
theorem gen_iterable_as_bytes_strings (l : List String) :
    _gen_iterable_as_bytes (l.map PyVal.str) = ⟨l.map strToUtf8, l.map PyVal.str, none⟩ := by
  induction l with
  | nil => rfl
  | cons a l ih => simp [_gen_iterable_as_bytes, _as_bytes, ih]

/-- `list(...)` over the generator on all-string input. -/
theorem list_of_gen_strings (l : List String) :
    list_of_gen (l.map PyVal.str) = .ok (l.map strToUtf8) := by
  simp [list_of_gen, gen_iterable_as_bytes_strings]

/-- The paired per-field results have the length of the shorter of the
two zipped sequences. -/
theorem dictionary_get_responses_length (fs : List (List Nat))
    (its : List _DictionaryGetResponsePart) :
    (dictionary_get_responses fs its).length = min fs.length its.length := by
  induction fs generalizing its with
  | nil => cases its <;> simp [dictionary_get_responses]
  | cons f fs ih =>
    cases its with
    | nil => simp [dictionary_get_responses]
    | cons it its => simp [dictionary_get_responses, ih]; omega

/-- C10: on a found dictionary response, `dictionary_get_fields` pairs
requested fields and response items positionally via `zip`: the Hit
carries exactly `min` (requested, returned) per-field results, so
surplus requested fields are silently dropped, and surplus response
items are ignored. -/
theorem dictionary_get_fields_zip_truncates (self : _ScsDataClient)
    (fields : List String) (items : List _DictionaryGetResponsePart) :
    (self.dictionary_get_fields (trWith none (some "found") none items [] 0)
        (.str "c") (.str "d") (fields.map PyVal.str)).1
      = .hit (dictionary_get_responses (fields.map strToUtf8) items)
  ∧ (dictionary_get_responses (fields.map strToUtf8) items).length
      = min fields.length items.length := by
  constructor
  · simp [_ScsDataClient.dictionary_get_fields, _ScsDataClient.dictionary_get_fields_body,
      runOp, trWith, DM.liftE, DM.send, _validate_cache_name, _validate_dictionary_name,
      _validate_name, _as_bytes, list_of_gen_strings, Bind.bind, Pure.pure]
  · simp [dictionary_get_responses_length]

/-- C4 counterexample: a missed field's per-field result is the bare
`Miss` constructor, which carries no key: requesting field "a" and
requesting field "b" against the same found response (one item, result
`Miss`) produce identical outcomes, so the Miss result cannot carry
the requested field's key. -/
theorem miss_result_carries_no_key :
    (clientW.dictionary_get_fields (trWith none (some "found") none [⟨.Miss, []⟩] [] 0)
        (.str "c") (.str "d") [.str "a"]).1
      = .hit [.miss]
  ∧ (clientW.dictionary_get_fields (trWith none (some "found") none [⟨.Miss, []⟩] [] 0)
        (.str "c") (.str "d") [.str "b"]).1
      = .hit [.miss] := ⟨rfl, rfl⟩

/-- Positional characterization of the pairing loop: the j-th
per-field result is built from the j-th requested field and the j-th
response item (present only when both exist). -/
theorem dictionary_get_responses_getElem? (fs : List (List Nat))
    (its : List _DictionaryGetResponsePart) (j : Nat) :
    (dictionary_get_responses fs its)[j]?
      = match fs[j]?, its[j]? with
        | some f, some it =>
          some (if it.result = ECacheResult.Miss then CacheDictionaryGetFieldResponse.miss
                else CacheDictionaryGetFieldResponse.hit it.cache_body f)
        | _, _ => none := by
  induction fs generalizing its j with
  | nil => cases its <;> cases j <;> simp [dictionary_get_responses]
  | cons f fs ih =>
    cases its with
    | nil => cases j <;> simp [dictionary_get_responses]
    | cons it its => cases j <;> simp [dictionary_get_responses, ih]

/-- C4 (amended): on a found dictionary, the per-field results pair the
requested fields with the response items preserving request order (the
j-th result is determined by the j-th requested field and the j-th
item, for every requested field set); a field whose item missed yields
the `Miss` result, which carries neither a value nor its key, while a
hit result carries the value and its field. -/
theorem dictionary_get_fields_request_order (self : _ScsDataClient)
    (fields : List String) (items : List _DictionaryGetResponsePart) (j : Nat) :
    (self.dictionary_get_fields (trWith none (some "found") none items [] 0)
        (.str "c") (.str "d") (fields.map PyVal.str)).1
      = .hit (dictionary_get_responses (fields.map strToUtf8) items)
  ∧ ((dictionary_get_responses (fields.map strToUtf8) items)[j]?
      = match (fields.map strToUtf8)[j]?, items[j]? with
        | some f, some it =>
          some (if it.result = ECacheResult.Miss then CacheDictionaryGetFieldResponse.miss
                else CacheDictionaryGetFieldResponse.hit it.cache_body f)
        | _, _ => none) := by
  constructor
  · simp [_ScsDataClient.dictionary_get_fields, _ScsDataClient.dictionary_get_fields_body,
      runOp, trWith, DM.liftE, DM.send, _validate_cache_name, _validate_dictionary_name,
      _validate_name, _as_bytes, list_of_gen_strings, Bind.bind, Pure.pure]
  · exact dictionary_get_responses_getElem? _ _ _

/-- Interceptor of client instance A, built with the agent header. -/
def agentInterceptorA : AddHeaderClientInterceptor :=
  AddHeaderClientInterceptor.ofHeaders [⟨"agent", "python:x"⟩]

/-- Interceptor of a second client instance B, built with the same
agent header (the flag they consult is the shared class attribute). -/
def agentInterceptorB : AddHeaderClientInterceptor :=
  AddHeaderClientInterceptor.ofHeaders [⟨"agent", "python:x"⟩]

/-- C3 counterexample: `are_only_once_headers_sent` is a class
attribute shared by all instances.  Instance A's first call (class
flag still `false`) attaches the agent header and flips the flag to
`true`; instance B's first call then runs with the flag already `true`
and its metadata carries NO agent header — the one-time header is
omitted from that instance's first call. -/
theorem agent_header_omitted_on_second_instance_first_call :
    agentInterceptorA.intercept_unary_unary false freshCallDetails
      = .ok ({ freshCallDetails with metadata := .list [("agent", "python:x")] }, true)
  ∧ agentInterceptorB.intercept_unary_unary true freshCallDetails
      = .ok ({ freshCallDetails with metadata := .list [] }, true) := ⟨rfl, rfl⟩

/-- An interceptor carrying the agent header plus an every-call
header, as a client constructs it. -/
def agentRuntimeInterceptor : AddHeaderClientInterceptor :=
  AddHeaderClientInterceptor.ofHeaders [⟨"agent", "python:x"⟩, ⟨"runtime-version", "r"⟩]

/-- Once the class flag is set, no later call ever carries the agent
header (and the flag stays set). -/
theorem no_agent_after_flag_set (m : Nat) :
    ((runInterceptSeq agentRuntimeInterceptor true m).1.map countAgent)
      = List.replicate m 0 := by
  induction m with
  | zero => rfl
  | succ m ih =>
    have hstep : agentRuntimeInterceptor.intercept_unary_unary true freshCallDetails
        = .ok ({ freshCallDetails with metadata := .list [("runtime-version", "r")] }, true) :=
      rfl
    simp [runInterceptSeq, hstep, ih, countAgent, metadataEntries, List.replicate]

/-- C3 (amended): relative to the shared class-level flag, the
one-time agent header is attached exactly once per process, on the
first call issued while the flag is unset: over any sequence of
`n + 1` sequential calls through one interceptor starting from the
fresh (unset) flag, the first call's metadata carries the agent header
exactly once and every subsequent call's metadata carries it zero
times.  (A further instance calling afterwards starts with the flag
set and never attaches it, as the counterexample shows.) -/
theorem once_header_sent_exactly_once_from_fresh_flag (n : Nat) :
    ((runInterceptSeq agentRuntimeInterceptor false (n + 1)).1.map countAgent)
      = 1 :: List.replicate n 0 := by
  have hfirst : agentRuntimeInterceptor.intercept_unary_unary false freshCallDetails
      = .ok ({ freshCallDetails with
                metadata := .list [("runtime-version", "r"), ("agent", "python:x")] }, true) :=
    rfl
  simp [runInterceptSeq, hfirst, countAgent, metadataEntries, no_agent_after_flag_set]

/-- Is the value one `_as_bytes` accepts (text or binary)? -/
def textOrBinary : PyVal → Bool
  | .str _ => true
  | .bytes _ => true
  | _ => false

/-- The bytes `_as_bytes` produces on an accepted value. -/
def coerceBytes : PyVal → List Nat
  | .str s => strToUtf8 s
  | .bytes b => b
  | _ => []

/-- C7: per-element byte coercion over an iterable is lazy in the
failure sense: on input `good ++ bad :: rest` with every element of
`good` text-or-binary and `bad` neither, the generator yields exactly
the coercions of `good`, raises the validation error at `bad`, and the
elements it ever passed to `_as_bytes` are exactly `good ++ [bad]` —
nothing in `rest` is coerced. -/
theorem gen_coercion_stops_at_first_invalid (good : List PyVal) (bad : PyVal)
    (rest : List PyVal) (hg : ∀ v ∈ good, textOrBinary v = true)
    (hb : textOrBinary bad = false) :
    _gen_iterable_as_bytes (good ++ bad :: rest)
      = ⟨good.map coerceBytes, good ++ [bad],
         some (.invalidArgument (DEFAULT_STRING_CONVERSION_ERROR ++ bad.typeName))⟩ := by
  induction good with
  | nil =>
    have hbad : _as_bytes bad DEFAULT_STRING_CONVERSION_ERROR
        = .error (.invalidArgument (DEFAULT_STRING_CONVERSION_ERROR ++ bad.typeName)) := by
      cases bad <;> first | rfl | simp [textOrBinary] at hb
    simp [_gen_iterable_as_bytes, hbad]
  | cons a l ih =>
    have ha : _as_bytes a DEFAULT_STRING_CONVERSION_ERROR = .ok (coerceBytes a) := by
      have := hg a (List.mem_cons_self a l)
      cases a <;> first | rfl | simp [textOrBinary] at this
    have ihl := ih (fun v hv => hg v (List.mem_cons_of_mem a hv))
    simp [_gen_iterable_as_bytes, ha, ihl, coerceBytes]

/-- C7 witness: two valid elements are yielded, the integer fails, the
trailing element is never coerced. -/
theorem gen_coercion_stops_at_first_invalid_witness :
    _gen_iterable_as_bytes [.str "ab", .bytes [7], .int 3, .str "zz"]
      = ⟨[strToUtf8 "ab", [7]], [.str "ab", .bytes [7], .int 3],
         some (.invalidArgument (DEFAULT_STRING_CONVERSION_ERROR ++ "<class int>"))⟩ :=
  gen_coercion_stops_at_first_invalid [.str "ab", .bytes [7]] (.int 3) [.str "zz"]
    (by decide) (by decide)

/-- The encoder never produces an empty byte sequence. -/
theorem utf8EncodeCodePoint_ne_nil (c : Nat) : utf8EncodeCodePoint c ≠ [] := by
  unfold utf8EncodeCodePoint
  split <;> simp_all
  split <;> simp_all
  split <;> simp_all

/-- Single-character decoding inverts the encoder on any valid scalar
value, leaving the byte tail untouched. -/
theorem utf8DecodeChar_encode (c : Nat) (h : Nat.isValidChar c) (rest : List Nat) :
    utf8DecodeChar (utf8EncodeCodePoint c ++ rest) = some (c, rest) := by
  have hv : c < 0xD800 ∨ (0xDFFF < c ∧ c < 0x110000) := h
  by_cases h1 : c < 0x80
  · have e1 : utf8EncodeCodePoint c = [c] := by simp [utf8EncodeCodePoint, h1]
    rw [e1]
    simp only [List.cons_append, List.nil_append, utf8DecodeChar]
    rw [if_pos h1]
  · by_cases h2 : c < 0x800
    · have e1 : utf8EncodeCodePoint c = [0xC0 + c / 64, 0x80 + c % 64] := by
        simp [utf8EncodeCodePoint, h1, h2]
      rw [e1]
      simp only [List.cons_append, List.nil_append, utf8DecodeChar]
      rw [if_neg (by omega), if_neg (by omega), if_pos (by omega),
        if_pos (show isContinuationByte (0x80 + c % 64) from ⟨by omega, by omega⟩),
        if_pos (by omega)]
      have hc : (0xC0 + c / 64 - 0xC0) * 64 + (0x80 + c % 64 - 0x80) = c := by omega
      rw [hc]
    · by_cases h3 : c < 0x10000
      · have e1 : utf8EncodeCodePoint c
            = [0xE0 + c / 4096, 0x80 + c / 64 % 64, 0x80 + c % 64] := by
          simp [utf8EncodeCodePoint, h1, h2, h3]
        rw [e1]
        simp only [List.cons_append, List.nil_append, utf8DecodeChar]
        have hc : (0xE0 + c / 4096 - 0xE0) * 4096 + (0x80 + c / 64 % 64 - 0x80) * 64 +
            (0x80 + c % 64 - 0x80) = c := by omega
        rw [if_neg (by omega), if_neg (by omega), if_neg (by omega), if_pos (by omega),
          if_pos (show isContinuationByte (0x80 + c / 64 % 64) ∧
              isContinuationByte (0x80 + c % 64) from
            ⟨⟨by omega, by omega⟩, ⟨by omega, by omega⟩⟩),
          hc, if_pos (by omega)]
      · have hlt : c < 0x110000 := by omega
        have e1 : utf8EncodeCodePoint c
            = [0xF0 + c / 262144, 0x80 + c / 4096 % 64, 0x80 + c / 64 % 64, 0x80 + c % 64] := by
          simp [utf8EncodeCodePoint, h1, h2, h3]
        rw [e1]
        simp only [List.cons_append, List.nil_append, utf8DecodeChar]
        have hc : (0xF0 + c / 262144 - 0xF0) * 262144 + (0x80 + c / 4096 % 64 - 0x80) * 4096 +
            (0x80 + c / 64 % 64 - 0x80) * 64 + (0x80 + c % 64 - 0x80) = c := by omega
        rw [if_neg (by omega), if_neg (by omega), if_neg (by omega), if_neg (by omega),
          if_pos (by omega),
          if_pos (show isContinuationByte (0x80 + c / 4096 % 64) ∧
              isContinuationByte (0x80 + c / 64 % 64) ∧
              isContinuationByte (0x80 + c % 64) from
            ⟨⟨by omega, by omega⟩, ⟨by omega, by omega⟩, ⟨by omega, by omega⟩⟩),
          hc, if_pos (by omega)]

/-- Decoding peels an encoded valid scalar value off the front. -/
theorem utf8Decode_encode_cons (c : Nat) (h : Nat.isValidChar c) (rest : List Nat) :
    utf8Decode (utf8EncodeCodePoint c ++ rest) = (utf8Decode rest).map (c :: ·) := by
  obtain ⟨b0, bs, he⟩ : ∃ b0 bs, utf8EncodeCodePoint c ++ rest = b0 :: bs := by
    cases hE : utf8EncodeCodePoint c with
    | nil => exact absurd hE (utf8EncodeCodePoint_ne_nil c)
    | cons x xs => exact ⟨x, xs ++ rest, by simp [hE]⟩
  have hchar := utf8DecodeChar_encode c h rest
  rw [he] at hchar ⊢
  simp only [utf8Decode]
  split
  · rename_i cr hcr
    rw [hchar] at hcr
    cases hcr
    rfl
  · rename_i hcr
    rw [hchar] at hcr
    cases hcr

/-- Decoding inverts encoding on every list of valid scalar values. -/
theorem utf8Decode_utf8EncodeList (cs : List Nat) (h : ∀ c ∈ cs, Nat.isValidChar c) :
    utf8Decode (utf8EncodeList cs) = some cs := by
  induction cs with
  | nil => simp [utf8EncodeList, utf8Decode]
  | cons c cs ih =>
    have hstep : utf8EncodeList (c :: cs) = utf8EncodeCodePoint c ++ utf8EncodeList cs := by
      simp [utf8EncodeList]
    rw [hstep, utf8Decode_encode_cons c (h c (by simp)) _,
      ih (fun x hx => h x (by simp [hx]))]
    rfl

/-- C8: for every text value `v`, the byte-coercion layer encodes `v`
to its canonical UTF-8 bytes, and decoding those bytes as UTF-8
recovers `v` exactly. -/
theorem utf8_text_round_trip (s : String) :
    _as_bytes (.str s) DEFAULT_STRING_CONVERSION_ERROR = .ok (strToUtf8 s)
  ∧ pyBytesDecodeUtf8 (strToUtf8 s) = some s := by
  refine ⟨rfl, ?_⟩
  have hvalid : ∀ c ∈ s.data.map Char.toNat, Nat.isValidChar c := by
    intro c hc
    rw [List.mem_map] at hc
    obtain ⟨ch, _, rfl⟩ := hc
    exact ch.valid
  simp only [pyBytesDecodeUtf8, strToUtf8]
  rw [utf8Decode_utf8EncodeList _ hvalid]
  simp only [Option.map_some']
  congr 1
  rw [List.map_map]
  have hmap : ∀ l : List Char, l.map (Char.ofNat ∘ Char.toNat) = l := by
    intro l
    induction l with
    | nil => rfl
    | cons a l ih => simp [ih, Char.ofNat_toNat, Function.comp]
  rw [hmap]
